import Mathlib

/-!
Verification of the ecitko water-meter image pipeline.

We give a shallow embedding of the two core subsystems of the repository —
the streaming upload endpoint (`main.py`) and the asynchronous OCR worker
(`worker.py`) — and prove properties of the embedded definitions.

Modelling conventions:
* bytes are natural numbers (values below 256 where it matters);
* text is a Lean `String` / `List Char`; character classes model the ASCII
  behaviour of the corresponding Python predicates;
* the incoming multipart body is a chunk source `Nat → List Byte`
  (the i-th `await file.read(CHUNK_SIZE)` result; `[]` means end of stream);
* the filesystem and database visible to the endpoint are a record of
  stored files and image rows, threaded explicitly;
* external collaborators (database success/failure, Celery enqueue success,
  the OCR engine) are oracle parameters, so each failure mode of the real
  system corresponds to a choice of oracle;
* Python float arithmetic on confidences is modelled exactly over `ℚ`.
-/

namespace Ecitko

/-- Bytes are modelled as natural numbers. -/
abbrev Byte := Nat

/-- Constant `MAX_FILE_SIZE = 5 * 1024 * 1024` from `main.py`. -/
def MAX_FILE_SIZE : Nat := 5 * 1024 * 1024

/-- Constant `CHUNK_SIZE = 1024 * 1024` from `main.py`. -/
def CHUNK_SIZE : Nat := 1024 * 1024

/-- The JPEG start-of-image marker FF D8 FF. -/
def jpegSig : List Byte := [0xff, 0xd8, 0xff]

/-- The PNG signature 89 50 4E 47 0D 0A 1A 0A. -/
def pngSig : List Byte := [0x89, 0x50, 0x4e, 0x47, 0x0d, 0x0a, 0x1a, 0x0a]

/-- Character class of the Python regex token backslash-w over ASCII:
letters, decimal digits and the underscore. -/
def isWordChar (c : Char) : Bool := c.isAlphanum || c = '_'

/-- Character class of Python whitespace over ASCII (regex backslash-s and
str.strip): space, tab, newline, carriage return, vertical tab, form feed. -/
def isPythonSpace (c : Char) : Bool :=
  c = ' ' || c = '\t' || c = '\n' || c = '\r' || c = '\x0b' || c = '\x0c'

/-- Embedding of `os.path.basename` (POSIX): the part of the path after the
last slash. -/
def basename (s : List Char) : List Char :=
  (s.reverse.takeWhile (fun c => c ≠ '/')).reverse

/-- Embedding of `main.sanitize_filename`: strip path components, drop every
character that is not a word character, whitespace, dot or hyphen, then
replace spaces with underscores. -/
def sanitize_filename (filename : List Char) : List Char :=
  let f1 := basename filename
  let f2 := f1.filter (fun c => isWordChar c || isPythonSpace c || c = '.' || c = '-')
  f2.map (fun c => if c = ' ' then '_' else c)

/-- Embedding of `main.get_file_extension`: the lower-cased text after the
last dot, or empty when there is no dot or nothing follows the last dot. -/
def get_file_extension (filename : List Char) : List Char :=
  if '.' ∈ filename then
    let ext := (filename.reverse.takeWhile (fun c => c ≠ '.')).reverse
    if ext = [] then [] else ext.map Char.toLower
  else []

/-- The ALLOWED_EXTENSIONS set of `main.py`. -/
def ALLOWED_EXTENSIONS : List (List Char) := ["jpeg".data, "jpg".data, "png".data]

/-- Embedding of `main.is_allowed_file`. -/
def is_allowed_file (filename : List Char) : Bool :=
  decide (get_file_extension filename ∈ ALLOWED_EXTENSIONS)

/-- Embedding of `main.validate_image_content`: magic-byte sniffing on the
first bytes of the stream.  Fewer than 12 bytes is rejected; otherwise the
content must start with the JPEG marker or the PNG signature. -/
def validate_image_content (file_content : List Byte) : Bool :=
  if file_content.length < 12 then false
  else if file_content.take 3 = jpegSig then true
  else if file_content.take 8 = pngSig then true
  else false

/-- Result of the chunked read-and-write loop of `main.upload_image`
(lines 184-203).  A value `tooLarge written file_size chunksRead` models the
size HTTPException being raised: `written` is what is on disk at that
moment, `file_size` is the cumulative counter including the chunk that was
counted but not written.  A value `done written first_chunk file_size
chunksRead` models normal loop exit on an empty read. -/
inductive ReadOutcome where
  | tooLarge (written : List Byte) (file_size : Nat) (chunksRead : Nat)
  | done (written : List Byte) (first_chunk : Option (List Byte))
      (file_size : Nat) (chunksRead : Nat)
deriving DecidableEq

/-- The chunked read loop of `main.upload_image`: read a chunk, stop on an
empty read, retain the first chunk, add the chunk length to the running
size, raise the size error before writing when the running size exceeds
MAX_FILE_SIZE, otherwise write the chunk and continue.  The loop
terminates on every chunk source — including one that never produces an
empty chunk — because every written chunk is nonempty and the running size
is bounded by MAX_FILE_SIZE. -/
def readLoop (stream : Nat → List Byte) (i : Nat) (file_size : Nat)
    (written : List Byte) (first_chunk : Option (List Byte)) : ReadOutcome :=
  let chunk := stream i
  if hc : chunk = [] then .done written first_chunk file_size i
  else
    let fc := match first_chunk with
      | none => some chunk
      | some c0 => some c0
    if hs : MAX_FILE_SIZE < file_size + chunk.length then
      .tooLarge written (file_size + chunk.length) (i + 1)
    else readLoop stream (i + 1) (file_size + chunk.length) (written ++ chunk) fc
termination_by MAX_FILE_SIZE + 1 - file_size
decreasing_by
  have hpos : 0 < (stream i).length := List.length_pos.2 hc
  have hs2 : file_size + (stream i).length ≤ MAX_FILE_SIZE := not_lt.1 hs
  omega

/-- Disk and database state visible to the upload endpoint: the files of
the upload directory (path and content) and the image rows (id and
image_url). -/
structure SysState where
  files : List (String × List Byte)
  images : List (Nat × String)
deriving DecidableEq

/-- Error outcomes of `main.upload_image`, one per HTTPException site:
missing filename (400), disallowed extension (400), unknown or inactive
meter (404), oversize payload (400), invalid magic bytes (400), and the
generic handler around insert and enqueue (500, detail "Failed to save
image record to database"). -/
inductive UploadError where
  | emptyFilename
  | badExtension
  | meterNotFound
  | tooLarge
  | invalidContent
  | dbError
deriving DecidableEq

/-- Success payload of `main.upload_image` (the fields the claims are
about). -/
structure UploadResp where
  image_id : Nat
  image_url : String
deriving DecidableEq

/-- Effect on the upload directory of open(path, "wb") followed by the
chunk writes: the path holds exactly the written content. -/
def putFile (path : String) (content : List Byte)
    (files : List (String × List Byte)) : List (String × List Byte) :=
  files.filter (fun e => e.1 ≠ path) ++ [(path, content)]

/-- Effect of file_path.unlink() on the upload directory. -/
def removeFile (path : String)
    (files : List (String × List Byte)) : List (String × List Byte) :=
  files.filter (fun e => e.1 ≠ path)

/-- Embedding of the POST /upload handler `main.upload_image` (lines
146-270).  External collaborators are oracle parameters: `meterOk` is the
result of db.water_meter_exists, `stream` is the chunk source of the
uploaded file part, `file_path` is the generated unique target path (the
timestamp/uuid generation is outside the model; freshness of the path is a
hypothesis of the theorems), `insertOk`/`newId` describe db.insert_image,
and `enqueueOk` describes celery_app.send_task.  The function returns the
final disk/database state together with the response. -/
def upload_image (filename : String) (meterOk : Bool) (stream : Nat → List Byte)
    (file_path : String) (insertOk : Bool) (newId : Nat) (enqueueOk : Bool)
    (st : SysState) : SysState × Except UploadError UploadResp :=
  if filename = "" then (st, .error .emptyFilename)
  else
    let sanitized_filename := sanitize_filename filename.data
    if ¬ is_allowed_file sanitized_filename then (st, .error .badExtension)
    else if ¬ meterOk then (st, .error .meterNotFound)
    else
      match readLoop stream 0 0 [] none with
      | .tooLarge written _ _ =>
        ({ st with files := removeFile file_path (putFile file_path written st.files) },
         .error .tooLarge)
      | .done written first_chunk _ _ =>
        let st1 : SysState := { st with files := putFile file_path written st.files }
        match first_chunk with
        | none =>
          ({ st1 with files := removeFile file_path st1.files }, .error .invalidContent)
        | some chunk =>
          if ¬ validate_image_content chunk then
            ({ st1 with files := removeFile file_path st1.files }, .error .invalidContent)
          else if ¬ insertOk then
            ({ st1 with files := removeFile file_path st1.files }, .error .dbError)
          else
            let st2 : SysState := { st1 with images := st1.images ++ [(newId, file_path)] }
            if ¬ enqueueOk then
              ({ st2 with files := removeFile file_path st2.files }, .error .dbError)
            else (st2, .ok ⟨newId, file_path⟩)

/-- The first retained chunk after feeding a chunk list: the chunk already
retained, or else the head of the list. -/
def firstOr (fc : Option (List Byte)) (chunks : List (List Byte)) :
    Option (List Byte) :=
  match fc with
  | some c0 => some c0
  | none => chunks.head?

/-- A 12-byte chunk beginning with the JPEG marker. -/
def jpegChunk : List Byte := jpegSig ++ List.replicate 9 0

/-- A chunk source producing one valid JPEG chunk and then ending. -/
def stream1 : Nat → List Byte := fun i => if i = 0 then jpegChunk else []

/-- Scanner underlying the embedding of `re.findall(r'\d+', text)` in
`worker.ocr_task`: walk the text keeping the (reversed) digit run in
progress in an accumulator, emitting each maximal run when it ends. -/
def digitRunsAux : List Char → List Char → List (List Char)
  | [], acc => if acc = [] then [] else [acc.reverse]
  | c :: rest, acc =>
    if c.isDigit then digitRunsAux rest (c :: acc)
    else if acc = [] then digitRunsAux rest []
    else acc.reverse :: digitRunsAux rest []

/-- Embedding of `re.findall(r'\d+', text)`: the list of maximal runs of
decimal digits of the text, in order of appearance. -/
def re_findall_digits (s : List Char) : List (List Char) := digitRunsAux s []

/-- Embedding of Python str.strip(): drop whitespace from both ends. -/
def pythonStrip (s : List Char) : List Char :=
  ((s.dropWhile isPythonSpace).reverse.dropWhile isPythonSpace).reverse

/-- Embedding of the value derivation of `worker.ocr_task` (lines 91-92):
join the digit runs, or fall back to the stripped raw text when there is
no digit run. -/
def extract_value (ocr_text : List Char) : List Char :=
  let numbers := re_findall_digits ocr_text
  if numbers ≠ [] then numbers.flatten else pythonStrip ocr_text

/-- String-level wrapper of `extract_value`. -/
def extract_value_str (s : String) : String := ⟨extract_value s.data⟩

/-- Embedding of the confidence aggregation of `worker.ocr_task` (lines
85-86): keep the strictly positive token confidences, then take sum/length
when any remain, and 0 otherwise.  Python float division is modelled exactly
over the rationals. -/
def avg_confidence (conf_data : List Int) : ℚ :=
  let confidences := conf_data.filter (fun c => 0 < c)
  if confidences ≠ [] then (confidences.sum : ℚ) / (confidences.length : ℚ) else 0

/-- The aggregate confidence as the spec words it: the arithmetic mean of
the token confidences strictly greater than zero, and 0 when no token
confidence is positive.  Stated with an explicit count and an if-guarded
sum, independently of the filter-based source computation. -/
def specAggregateConfidence (conf_data : List Int) : ℚ :=
  let n := conf_data.countP (fun c => 0 < c)
  if n = 0 then 0
  else (conf_data.map (fun c => if 0 < c then (c : ℚ) else 0)).sum / (n : ℚ)

/-- Status field of an OCRResult row. -/
inductive RStatus where
  | success
  | error
deriving DecidableEq

/-- One row of the ocr_results table, as written by db.save_ocr_result. -/
structure OCRRow where
  image_id : Nat
  task_id : String
  value : Option String
  raw_text : Option String
  confidence : ℚ
  status : RStatus
  error_message : Option String
deriving DecidableEq

/-- Oracles for the collaborators of `worker.ocr_task`: db.connect,
db.get_image_by_id (which may raise, return no row, or return the row's
image_url), the filesystem existence check, the OCR engine invocation
(raw text together with the per-token confidence list), and
db.save_ocr_result (raises or returns the new row id). -/
structure OcrEnv where
  connectRes : Except String Unit
  lookupRes : Except String (Option String)
  fileExists : String → Bool
  ocrRes : Except String (List Char × List Int)
  saveRes : Except String Nat

/-- The dict returned by `worker.ocr_task` (the fields the claims are
about). -/
inductive TaskResult where
  | errorRes (error : String)
  | successRes (image_id : Nat) (value : String) (raw_text : String)
      (confidence : ℚ) (numbers_found : List String) (ocr_result_id : Option Nat)
deriving DecidableEq

/-- Python round(x, 2) modelled exactly over the rationals: round half to
even at two decimal places. -/
def round2 (q : ℚ) : ℚ :=
  let x := q * 100
  let n := ⌊x⌋
  let f := x - n
  ((if f < 1 / 2 then n
    else if 1 / 2 < f then n + 1
    else if n % 2 = 0 then n else n + 1 : ℤ) : ℚ) / 100

/-- The top-level exception handler of `worker.ocr_task` (lines 125-145):
best-effort write of an error row (value and raw_text null, confidence 0,
status error, the exception message), swallowing a failure of that write,
then return the error dict. -/
def ocrErrorPath (task_id : String) (image_id : Nat) (env : OcrEnv)
    (e : String) : List OCRRow × TaskResult :=
  match env.saveRes with
  | .ok _ => ([⟨image_id, task_id, none, none, 0, .error, some e⟩], .errorRes e)
  | .error _ => ([], .errorRes e)

/-- Embedding of `worker.ocr_task` (lines 34-148): connect, look up the
Image row, check the stored file, invoke the OCR engine, aggregate the
confidence, derive the value, then write the success row (a failure of
that write is logged and swallowed, the dict is returned anyway); any
exception from the fallible steps goes through the top-level handler.  The
function returns the OCRResult rows written during the attempt together
with the returned dict. -/
def ocr_task (task_id : String) (image_id : Nat) (env : OcrEnv) :
    List OCRRow × TaskResult :=
  match env.connectRes with
  | .error e => ocrErrorPath task_id image_id env e
  | .ok _ =>
    match env.lookupRes with
    | .error e => ocrErrorPath task_id image_id env e
    | .ok none =>
      ([], .errorRes ("Image with ID " ++ toString image_id ++ " not found"))
    | .ok (some image_path) =>
      if env.fileExists image_path = false then
        ([], .errorRes ("Image file not found: " ++ image_path))
      else
        match env.ocrRes with
        | .error e => ocrErrorPath task_id image_id env e
        | .ok (ocr_result, conf_data) =>
          let avg := avg_confidence conf_data
          let numbers := re_findall_digits ocr_result
          let value : List Char :=
            if numbers ≠ [] then numbers.flatten else pythonStrip ocr_result
          match env.saveRes with
          | .ok ocr_id =>
            ([⟨image_id, task_id, some ⟨value⟩, some ⟨pythonStrip ocr_result⟩,
                avg, .success, none⟩],
             .successRes image_id ⟨value⟩ ⟨pythonStrip ocr_result⟩
               (round2 avg) (numbers.map fun l => ⟨l⟩) (some ocr_id))
          | .error _ =>
            ([], .successRes image_id ⟨value⟩ ⟨pythonStrip ocr_result⟩
               (round2 avg) (numbers.map fun l => ⟨l⟩) none)

/-- The proposition that one of the worker's fallible processing steps —
the database connect, the Image row lookup, or the OCR invocation — raises
exception e on environment env (the confidence and value computations are
pure and cannot raise). -/
def raisesDuring (env : OcrEnv) (e : String) : Prop :=
  env.connectRes = .error e ∨
  (env.connectRes = .ok () ∧ env.lookupRes = .error e) ∨
  (env.connectRes = .ok () ∧ ∃ p, env.lookupRes = .ok (some p) ∧
    env.fileExists p = true ∧ env.ocrRes = .error e)

/-- Taking a prefix of the length of a pattern yields the pattern exactly when
the list extends the pattern (assuming the list is long enough). -/
lemma take_eq_iff_append (pat fc : List Byte) (h : pat.length ≤ fc.length) :
    fc.take pat.length = pat ↔ ∃ r, fc = pat ++ r := by
  constructor
  · intro ht
    refine ⟨fc.drop pat.length, ?_⟩
    conv_lhs => rw [← List.take_append_drop pat.length fc]
    rw [ht]
  · rintro ⟨r, rfl⟩
    simp

/-- Branch-level characterisation of `validate_image_content`. -/
lemma validate_image_content_eq_true (fc : List Byte) :
    validate_image_content fc = true ↔
      12 ≤ fc.length ∧ (fc.take 3 = jpegSig ∨ fc.take 8 = pngSig) := by
  unfold validate_image_content
  split
  · next hlen =>
    simp only [Bool.false_eq_true, false_iff, not_and]
    intro h12
    omega
  · next hlen =>
    split
    · next h3 =>
      simp only [true_iff]
      exact ⟨by omega, Or.inl h3⟩
    · next h3 =>
      split
      · next h8 =>
        simp only [true_iff]
        exact ⟨by omega, Or.inr h8⟩
      · next h8 =>
        simp only [Bool.false_eq_true, false_iff, not_and]
        intro _ hor
        rcases hor with h | h
        · exact h3 h
        · exact h8 h

/-- C9: the signature check accepts exactly the byte sequences of length at
least 12 that begin with the JPEG marker FF D8 FF or the PNG signature
89 50 4E 47 0D 0A 1A 0A; anything shorter than 12 bytes is rejected, and
12 zero bytes are rejected. -/
theorem validate_image_content_spec :
    (∀ fc : List Byte, validate_image_content fc = true ↔
      (12 ≤ fc.length ∧
        ((∃ r, fc = jpegSig ++ r) ∨ (∃ r, fc = pngSig ++ r)))) ∧
    (∀ fc : List Byte, fc.length < 12 → validate_image_content fc = false) ∧
    validate_image_content (List.replicate 12 0) = false := by
  have hlen3 : jpegSig.length = 3 := by decide
  have hlen8 : pngSig.length = 8 := by decide
  have hmain : ∀ fc : List Byte, validate_image_content fc = true ↔
      (12 ≤ fc.length ∧
        ((∃ r, fc = jpegSig ++ r) ∨ (∃ r, fc = pngSig ++ r))) := by
    intro fc
    rw [validate_image_content_eq_true]
    constructor
    · rintro ⟨h12, hor⟩
      refine ⟨h12, ?_⟩
      rcases hor with h | h
      · exact Or.inl ((take_eq_iff_append jpegSig fc (by omega)).1 (by rw [hlen3]; exact h))
      · exact Or.inr ((take_eq_iff_append pngSig fc (by omega)).1 (by rw [hlen8]; exact h))
    · rintro ⟨h12, hor⟩
      refine ⟨h12, ?_⟩
      rcases hor with h | h
      · exact Or.inl (by
          have := (take_eq_iff_append jpegSig fc (by omega)).2 h
          rwa [hlen3] at this)
      · exact Or.inr (by
          have := (take_eq_iff_append pngSig fc (by omega)).2 h
          rwa [hlen8] at this)
  refine ⟨hmain, ?_, by decide⟩
  intro fc hshort
  cases hv : validate_image_content fc
  · rfl
  · exact absurd ((hmain fc).1 hv).1 (by omega)

/-- Witness for C9 at concrete inputs: a 3-byte input is rejected by the
short-input clause, and a 12-byte JPEG-marker input is accepted. -/
theorem validate_image_content_spec_witness :
    validate_image_content [1, 2, 3] = false ∧
    validate_image_content (jpegSig ++ List.replicate 9 0) = true :=
  ⟨validate_image_content_spec.2.1 [1, 2, 3] (by decide),
   (validate_image_content_spec.1 (jpegSig ++ List.replicate 9 0)).2
     ⟨by decide, Or.inl ⟨List.replicate 9 0, rfl⟩⟩⟩

lemma readLoop_step_nil (stream : Nat → List Byte) (i fs : Nat) (w : List Byte)
    (fc : Option (List Byte)) (h : stream i = []) :
    readLoop stream i fs w fc = .done w fc fs i := by
  rw [readLoop.eq_def]
  simp [h]

lemma readLoop_step_over (stream : Nat → List Byte) (i fs : Nat) (w : List Byte)
    (fc : Option (List Byte)) (h : stream i ≠ [])
    (hover : MAX_FILE_SIZE < fs + (stream i).length) :
    readLoop stream i fs w fc = .tooLarge w (fs + (stream i).length) (i + 1) := by
  rw [readLoop.eq_def]
  simp [h, hover]

lemma readLoop_step_cont (stream : Nat → List Byte) (i fs : Nat) (w : List Byte)
    (fc : Option (List Byte)) (h : stream i ≠ [])
    (hover : ¬ MAX_FILE_SIZE < fs + (stream i).length) :
    readLoop stream i fs w fc =
      readLoop stream (i + 1) (fs + (stream i).length) (w ++ stream i)
        (match fc with
          | none => some (stream i)
          | some c0 => some c0) := by
  rw [readLoop.eq_def]
  simp [h, hover]

/-- Invariant of the read loop: started with the written bytes matching the
size counter and the counter within bound, every tooLarge outcome still has
at most MAX_FILE_SIZE bytes on disk (the overflowing chunk was counted but
not written), the overflow is strict, and the overflow happened exactly at
the last chunk read; every done outcome has bytes matching the size
counter, within bound, exiting at an empty read. -/
lemma readLoop_invariant :
    ∀ (k : Nat) (stream : Nat → List Byte) (i file_size : Nat)
      (written : List Byte) (first_chunk : Option (List Byte)),
      MAX_FILE_SIZE + 1 - file_size ≤ k →
      written.length = file_size → file_size ≤ MAX_FILE_SIZE →
      ((∀ w fs n, readLoop stream i file_size written first_chunk = .tooLarge w fs n →
          w.length ≤ MAX_FILE_SIZE ∧ MAX_FILE_SIZE < fs ∧
          fs = w.length + (stream (n - 1)).length ∧ i < n) ∧
       (∀ w fc fs n, readLoop stream i file_size written first_chunk = .done w fc fs n →
          w.length = fs ∧ fs ≤ MAX_FILE_SIZE ∧ stream n = [])) := by
  intro k
  induction k with
  | zero =>
    intro stream i fs w fc hk hw hle
    exfalso
    omega
  | succ k ih =>
    intro stream i fs w fc hk hw hle
    by_cases h0 : stream i = []
    · rw [readLoop_step_nil _ _ _ _ _ h0]
      constructor
      · intro w' fs' n' heq
        cases heq
      · intro w' fc' fs' n' heq
        cases heq
        exact ⟨hw, hle, h0⟩
    · by_cases hover : MAX_FILE_SIZE < fs + (stream i).length
      · rw [readLoop_step_over _ _ _ _ _ h0 hover]
        constructor
        · intro w' fs' n' heq
          cases heq
          refine ⟨by omega, hover, by simp [hw], by omega⟩
        · intro w' fc' fs' n' heq
          cases heq
      · rw [readLoop_step_cont _ _ _ _ _ h0 hover]
        have hlen : 0 < (stream i).length := List.length_pos.2 h0
        have hres := ih stream (i + 1) (fs + (stream i).length) (w ++ stream i)
          (match fc with
            | none => some (stream i)
            | some c0 => some c0)
          (by omega) (by simp [hw]) (by omega)
        refine ⟨fun w' fs' n' heq => ?_, hres.2⟩
        have := hres.1 w' fs' n' heq
        exact ⟨this.1, this.2.1, this.2.2.1, by omega⟩

/-- Feeding a finite list of nonempty chunks whose total size stays within
MAX_FILE_SIZE makes the loop write all of them and exit normally. -/
lemma readLoop_finite (chunks : List (List Byte)) :
    ∀ (stream : Nat → List Byte) (i file_size : Nat) (written : List Byte)
      (fc : Option (List Byte)),
      (∀ j, stream (i + j) = chunks.getD j []) →
      (∀ c ∈ chunks, c ≠ []) →
      file_size + (chunks.map List.length).sum ≤ MAX_FILE_SIZE →
      readLoop stream i file_size written fc =
        .done (written ++ chunks.flatten) (firstOr fc chunks)
          (file_size + (chunks.map List.length).sum) (i + chunks.length) := by
  induction chunks with
  | nil =>
    intro stream i fs w fc h hne hle
    have h0 : stream i = [] := by simpa using h 0
    rw [readLoop_step_nil _ _ _ _ _ h0]
    cases fc <;> simp [firstOr]
  | cons c cs ih =>
    intro stream i fs w fc h hne hle
    have h0 : stream i = c := by simpa using h 0
    have hc : c ≠ [] := hne c (List.mem_cons_self c cs)
    have hsum : fs + c.length + (cs.map List.length).sum ≤ MAX_FILE_SIZE := by
      simp only [List.map_cons, List.sum_cons] at hle
      omega
    have hnover : ¬ MAX_FILE_SIZE < fs + (stream i).length := by
      rw [h0]
      omega
    rw [readLoop_step_cont _ _ _ _ _ (by rw [h0]; exact hc) hnover, h0]
    have hstream : ∀ j, stream (i + 1 + j) = cs.getD j [] := by
      intro j
      have h1 := h (j + 1)
      rw [show i + (j + 1) = i + 1 + j by omega] at h1
      simpa using h1
    rw [ih stream (i + 1) (fs + c.length) (w ++ c) _ hstream
      (fun x hx => hne x (List.mem_cons_of_mem c hx)) hsum]
    simp only [ReadOutcome.done.injEq]
    refine ⟨by simp, ?_, ?_, ?_⟩
    · cases fc <;> simp [firstOr]
    · simp only [List.map_cons, List.sum_cons]
      omega
    · simp only [List.length_cons]
      omega

/-- A chunk source that never produces an empty chunk is always rejected by
the size check: the loop terminates with a tooLarge outcome. -/
lemma readLoop_nonempty_tooLarge (stream : Nat → List Byte)
    (hstream : ∀ j, stream j ≠ []) :
    ∀ (k i file_size : Nat) (written : List Byte) (fc : Option (List Byte)),
      MAX_FILE_SIZE + 1 - file_size ≤ k →
      ∃ w fs n, readLoop stream i file_size written fc = .tooLarge w fs n := by
  intro k
  induction k with
  | zero =>
    intro i fs w fc hk
    have hlen := List.length_pos.2 (hstream i)
    exact ⟨w, fs + (stream i).length, i + 1,
      readLoop_step_over _ _ _ _ _ (hstream i) (by omega)⟩
  | succ k ih =>
    intro i fs w fc hk
    by_cases hover : MAX_FILE_SIZE < fs + (stream i).length
    · exact ⟨w, fs + (stream i).length, i + 1,
        readLoop_step_over _ _ _ _ _ (hstream i) hover⟩
    · rw [readLoop_step_cont _ _ _ _ _ (hstream i) hover]
      have hlen := List.length_pos.2 (hstream i)
      exact ih (i + 1) (fs + (stream i).length) (w ++ stream i) _ (by omega)

/-- Removing a freshly written path restores the original directory. -/
lemma removeFile_putFile (path : String) (content : List Byte)
    (files : List (String × List Byte)) (h : ∀ e ∈ files, e.1 ≠ path) :
    removeFile path (putFile path content files) = files := by
  unfold removeFile putFile
  rw [List.filter_append]
  have h1 : files.filter (fun e => decide (e.1 ≠ path)) = files :=
    List.filter_eq_self.2 (fun a ha => by simpa using h a ha)
  simp [h1]
  intro a b hab
  exact h (a, b) hab

lemma readLoop_stream1 :
    readLoop stream1 0 0 [] none = .done jpegChunk (some jpegChunk) 12 1 := by
  rw [readLoop_step_cont _ _ _ _ _ (by decide) (by decide)]
  rw [readLoop_step_nil _ _ _ _ _ (by decide)]
  decide

lemma upload_image_stream1_insertFail :
    upload_image "a.jpg" true stream1 "p" false 1 true ⟨[], []⟩ =
      (⟨[], []⟩, .error .dbError) := by
  unfold upload_image
  rw [readLoop_stream1]
  rfl

lemma upload_image_stream1_enqueueFail :
    upload_image "a.jpg" true stream1 "p" true 1 false ⟨[], []⟩ =
      (⟨[], [(1, "p")]⟩, .error .dbError) := by
  unfold upload_image
  rw [readLoop_stream1]
  rfl

/-- C1: whenever the upload endpoint returns an error — missing filename,
bad extension, unknown or inactive meter, oversize payload, failed
signature check, or a database/enqueue failure — the upload directory is
left exactly as it was, so no new file remains (the generated target path
is assumed fresh, as its uuid component guarantees). -/
theorem upload_error_no_orphan (filename : String) (meterOk : Bool)
    (stream : Nat → List Byte) (file_path : String) (insertOk : Bool)
    (newId : Nat) (enqueueOk : Bool) (st st' : SysState) (err : UploadError)
    (hfresh : ∀ e ∈ st.files, e.1 ≠ file_path)
    (h : upload_image filename meterOk stream file_path insertOk newId enqueueOk st
        = (st', .error err)) :
    st'.files = st.files := by
  have hrm : ∀ content : List Byte,
      removeFile file_path (putFile file_path content st.files) = st.files :=
    fun content => removeFile_putFile file_path content st.files hfresh
  simp only [upload_image] at h
  split at h
  · rw [Prod.mk.injEq] at h
    rw [← h.1]
  · split at h
    · rw [Prod.mk.injEq] at h
      rw [← h.1]
    · split at h
      · rw [Prod.mk.injEq] at h
        rw [← h.1]
      · split at h
        · rw [Prod.mk.injEq] at h
          rw [← h.1]
          exact hrm _
        · split at h
          · rw [Prod.mk.injEq] at h
            rw [← h.1]
            exact hrm _
          · split at h
            · rw [Prod.mk.injEq] at h
              rw [← h.1]
              exact hrm _
            · split at h
              · rw [Prod.mk.injEq] at h
                rw [← h.1]
                exact hrm _
              · split at h
                · rw [Prod.mk.injEq] at h
                  rw [← h.1]
                  exact hrm _
                · simp at h

/-- Witness for C1 at a concrete input: a valid JPEG upload whose database
insert fails comes back with the upload directory as empty as it started. -/
theorem upload_error_no_orphan_witness :
    (⟨[], []⟩ : SysState).files = (⟨[], []⟩ : SysState).files :=
  upload_error_no_orphan "a.jpg" true stream1 "p" false 1 true ⟨[], []⟩ ⟨[], []⟩
    .dbError (by simp) upload_image_stream1_insertFail

/-- C2, evaluated at the failing input: a valid JPEG upload whose Image row
insert succeeds and whose enqueue then fails.  The generic exception
handler of main.py (lines 263-270) also catches the send_task failure: it
unlinks the stored file while keeping the Image row, so the endpoint
reports the 500 error with the row present and the file gone — the
opposite of the claim, which requires the just-written file to survive so
that the row⇔file invariant is maintained. -/
theorem upload_enqueue_failure_deletes_file :
    upload_image "a.jpg" true stream1 "p" true 1 false ⟨[], []⟩ =
      (⟨[], [(1, "p")]⟩, .error .dbError) ∧
    (upload_image "a.jpg" true stream1 "p" true 1 false ⟨[], []⟩).1.images
        = [(1, "p")] ∧
    (upload_image "a.jpg" true stream1 "p" true 1 false ⟨[], []⟩).1.files = [] := by
  refine ⟨upload_image_stream1_enqueueFail, ?_, ?_⟩ <;>
    rw [upload_image_stream1_enqueueFail]

/-- C3: the ingestion loop rejects an oversize body as soon as the
cumulative count exceeds MAX_FILE_SIZE: the loop stops with a tooLarge
outcome even on a chunk source that never ends; in a tooLarge outcome the
overflow is strict and happened exactly at the last chunk read, and the
bytes on disk never exceed MAX_FILE_SIZE (hence stay within MAX_FILE_SIZE
plus one chunk); the endpoint then deletes the partial file and returns
the size error. -/
theorem upload_oversize_spec :
    (∀ stream : Nat → List Byte, (∀ j, stream j ≠ []) →
      ∃ w fs n, readLoop stream 0 0 [] none = .tooLarge w fs n) ∧
    (∀ (stream : Nat → List Byte) (w : List Byte) (fs n : Nat),
      readLoop stream 0 0 [] none = .tooLarge w fs n →
      w.length ≤ MAX_FILE_SIZE ∧ w.length ≤ MAX_FILE_SIZE + CHUNK_SIZE ∧
      MAX_FILE_SIZE < fs ∧ fs = w.length + (stream (n - 1)).length) ∧
    (∀ (filename : String) (meterOk : Bool) (stream : Nat → List Byte)
        (file_path : String) (insertOk : Bool) (newId : Nat) (enqueueOk : Bool)
        (st : SysState) (w : List Byte) (fs n : Nat),
      filename ≠ "" → is_allowed_file (sanitize_filename filename.data) = true →
      meterOk = true → (∀ e ∈ st.files, e.1 ≠ file_path) →
      readLoop stream 0 0 [] none = .tooLarge w fs n →
      (upload_image filename meterOk stream file_path insertOk newId enqueueOk st).1.files
          = st.files ∧
      (upload_image filename meterOk stream file_path insertOk newId enqueueOk st).2
          = .error .tooLarge) := by
  refine ⟨?_, ?_, ?_⟩
  · intro stream hstream
    exact readLoop_nonempty_tooLarge stream hstream (MAX_FILE_SIZE + 1) 0 0 [] none
      (by omega)
  · intro stream w fs n h
    have hinv := (readLoop_invariant (MAX_FILE_SIZE + 1) stream 0 0 [] none
      (by omega) rfl (by omega)).1 w fs n h
    exact ⟨hinv.1, by have := hinv.1; omega, hinv.2.1, hinv.2.2.1⟩
  · intro filename meterOk stream file_path insertOk newId enqueueOk st w fs n
      hname hallow hmeter hfresh hloop
    subst hmeter
    simp only [upload_image]
    rw [if_neg hname, if_neg (not_not_intro hallow), if_neg (by simp), hloop]
    exact ⟨removeFile_putFile _ _ _ hfresh, rfl⟩

/-- Witness for C3 at a concrete input: the chunk source that forever
produces a 1-byte chunk is rejected with the size error and leaves no
partial file behind. -/
theorem upload_oversize_spec_witness :
    (∃ w fs n, readLoop (fun _ => [(0 : Byte)]) 0 0 [] none = .tooLarge w fs n) ∧
    (upload_image "a.jpg" true (fun _ => [(0 : Byte)]) "p" true 1 true ⟨[], []⟩).2
        = .error .tooLarge := by
  obtain ⟨w, fs, n, h⟩ := upload_oversize_spec.1 (fun _ => [(0 : Byte)])
    (fun j => by simp)
  refine ⟨⟨w, fs, n, h⟩, ?_⟩
  exact (upload_oversize_spec.2.2 "a.jpg" true (fun _ => [(0 : Byte)]) "p" true 1 true
    ⟨[], []⟩ w fs n (by decide) (by decide) rfl (by simp) h).2

/-- C10: a body whose chunks total exactly MAX_FILE_SIZE passes the size
check (the loop rejects only on cumulative size strictly greater than
MAX_FILE_SIZE), and because each chunk is counted and checked before it is
written, the bytes on disk never exceed MAX_FILE_SIZE in any outcome —
strictly tighter than the maxSize-plus-one-chunk bound. -/
theorem upload_size_check_boundary :
    (∀ chunks : List (List Byte), (∀ c ∈ chunks, c ≠ []) →
      (chunks.map List.length).sum = MAX_FILE_SIZE →
      readLoop (fun i => chunks.getD i []) 0 0 [] none =
        .done chunks.flatten chunks.head? MAX_FILE_SIZE chunks.length) ∧
    (∀ (stream : Nat → List Byte) (w : List Byte) (fs n : Nat),
      readLoop stream 0 0 [] none = .tooLarge w fs n →
      w.length ≤ MAX_FILE_SIZE ∧ MAX_FILE_SIZE < fs) ∧
    (∀ (stream : Nat → List Byte) (w : List Byte) (fc : Option (List Byte)) (fs n : Nat),
      readLoop stream 0 0 [] none = .done w fc fs n →
      w.length ≤ MAX_FILE_SIZE) := by
  refine ⟨?_, ?_, ?_⟩
  · intro chunks hne hsum
    have h := readLoop_finite chunks (fun i => chunks.getD i []) 0 0 [] none
      (fun j => by simp) hne (by omega)
    rw [h]
    simp [firstOr, hsum]
  · intro stream w fs n h
    have hinv := (readLoop_invariant (MAX_FILE_SIZE + 1) stream 0 0 [] none
      (by omega) rfl (by omega)).1 w fs n h
    exact ⟨hinv.1, hinv.2.1⟩
  · intro stream w fc fs n h
    have hinv := (readLoop_invariant (MAX_FILE_SIZE + 1) stream 0 0 [] none
      (by omega) rfl (by omega)).2 w fc fs n h
    omega

/-- Witness for C10 at a concrete input: a single chunk of exactly
MAX_FILE_SIZE bytes is accepted whole by the loop. -/
theorem upload_size_check_boundary_witness :
    readLoop (fun i => [List.replicate MAX_FILE_SIZE (0 : Byte)].getD i []) 0 0 [] none =
      .done (List.replicate MAX_FILE_SIZE 0) (some (List.replicate MAX_FILE_SIZE 0))
        MAX_FILE_SIZE 1 := by
  have h := upload_size_check_boundary.1 [List.replicate MAX_FILE_SIZE 0]
    (by
      intro c hc
      simp only [List.mem_singleton] at hc
      subst hc
      exact List.ne_nil_of_length_pos (by norm_num [MAX_FILE_SIZE]))
    (by simp)
  simpa using h

lemma filter_pos_sum_cast (l : List Int) :
    (((l.filter (fun c => 0 < c)).sum : Int) : ℚ) =
      (l.map (fun c => if 0 < c then (c : ℚ) else 0)).sum := by
  induction l with
  | nil => simp
  | cons a t ih =>
    by_cases ha : 0 < a <;> simp [List.filter_cons, ha, ih]

/-- C6: the aggregate confidence computed by the worker is the arithmetic
mean of exactly the strictly positive token confidences, 0 when none is
positive; the token list [90, 0, 80] yields 85 and the empty list yields 0. -/
theorem avg_confidence_spec :
    (∀ l : List Int, avg_confidence l = specAggregateConfidence l) ∧
    avg_confidence [90, 0, 80] = 85 ∧
    avg_confidence [] = 0 := by
  refine ⟨?_, ?_, by simp [avg_confidence]⟩
  · intro l
    simp only [avg_confidence, specAggregateConfidence]
    have hcount : l.countP (fun c => decide (0 < c)) = (l.filter (fun c => decide (0 < c))).length := by
      simp [List.countP_eq_length_filter]
    rw [hcount, ← filter_pos_sum_cast l]
    by_cases hf : l.filter (fun c => decide (0 < c)) = []
    · simp [hf]
    · have hne : (l.filter (fun c => decide (0 < c))).length ≠ 0 := by
        simpa [List.length_eq_zero] using hf
      simp [hf, hne]
  · have hf : ([90, 0, 80] : List Int).filter (fun c => decide (0 < c)) = [90, 80] := by decide
    simp only [avg_confidence, hf]
    rw [if_pos (List.cons_ne_nil 90 [80])]
    norm_num [List.sum_cons]

lemma join_digitRunsAux (l : List Char) :
    ∀ acc : List Char, (digitRunsAux l acc).flatten = acc.reverse ++ l.filter Char.isDigit := by
  induction l with
  | nil =>
    intro acc
    by_cases h : acc = [] <;> simp [digitRunsAux, h]
  | cons c rest ih =>
    intro acc
    by_cases hd : c.isDigit
    · simp [digitRunsAux, hd, ih, List.filter_cons]
    · by_cases h : acc = [] <;>
        simp [digitRunsAux, hd, h, ih, List.filter_cons]

lemma digitRunsAux_runs_ne_nil (l : List Char) :
    ∀ acc r, r ∈ digitRunsAux l acc → r ≠ [] := by
  induction l with
  | nil =>
    intro acc r h
    by_cases ha : acc = []
    · simp [digitRunsAux, ha] at h
    · simp [digitRunsAux, ha] at h
      simp [h, List.reverse_eq_nil_iff, ha]
  | cons c rest ih =>
    intro acc r h
    by_cases hd : c.isDigit
    · simp only [digitRunsAux, hd, if_pos] at h
      exact ih _ _ h
    · by_cases ha : acc = []
      · simp only [digitRunsAux, hd, Bool.false_eq_true, if_false, ha, if_pos] at h
        exact ih _ _ h
      · simp only [digitRunsAux, hd, Bool.false_eq_true, if_false, ha, if_neg,
          List.mem_cons] at h
        rcases h with h | h
        · simp [h, List.reverse_eq_nil_iff, ha]
        · exact ih _ _ h

lemma re_findall_digits_eq_nil_iff (s : List Char) :
    re_findall_digits s = [] ↔ s.filter Char.isDigit = [] := by
  have hjoin : (digitRunsAux s []).flatten = s.filter Char.isDigit := by
    simpa using join_digitRunsAux s []
  constructor
  · intro h
    have h' : digitRunsAux s [] = [] := h
    rw [h'] at hjoin
    simpa using hjoin.symm
  · intro h
    rw [h] at hjoin
    cases hruns : digitRunsAux s [] with
    | nil => exact hruns
    | cons r rs =>
      exfalso
      have hr : r ≠ [] := digitRunsAux_runs_ne_nil s [] r
        (by rw [hruns]; exact List.mem_cons_self r rs)
      rw [hruns] at hjoin
      simp only [List.flatten_cons, List.append_eq_nil] at hjoin
      exact hr hjoin.1

/-- C7: the derived reading is the concatenation, in order, of the maximal
digit runs of the raw text — equivalently all decimal digits of the text in
order — and when the text has no digit it falls back to the stripped raw
text; in particular the digit-free text "---" yields "---". -/
theorem extract_value_spec :
    (∀ s : List Char, extract_value s =
      if s.filter Char.isDigit = [] then pythonStrip s else s.filter Char.isDigit) ∧
    extract_value_str "---" = "---" := by
  refine ⟨?_, by decide⟩
  intro s
  simp only [extract_value]
  by_cases h : re_findall_digits s = []
  · rw [if_neg (not_not_intro h), if_pos ((re_findall_digits_eq_nil_iff s).1 h)]
  · rw [if_pos h,
      if_neg (fun hf => h ((re_findall_digits_eq_nil_iff s).2 hf))]
    simpa [re_findall_digits] using join_digitRunsAux s []

/-- C8 counterexample: digit extraction on the raw text "Reading: 0123 m3"
yields "01233" — the digit inside the trailing unit "m3" is a maximal digit
run too — and therefore not "0123" as claimed. -/
theorem extract_value_reading_counterexample :
    extract_value_str "Reading: 0123 m3" ≠ "0123" ∧
    extract_value_str "Reading: 0123 m3" = "01233" := by
  constructor <;> decide

/-- C8 amended: digit extraction on the raw text "Reading: 0123 m3" yields
"01233" (the runs are "0123" and the "3" of the unit suffix "m3"). -/
theorem extract_value_reading_amended :
    extract_value_str "Reading: 0123 m3" = "01233" := by decide

lemma ocrErrorPath_spec (task_id : String) (image_id : Nat) (env : OcrEnv)
    (e : String) :
    (ocrErrorPath task_id image_id env e).2 = .errorRes e ∧
    (∀ oid, env.saveRes = .ok oid →
      (ocrErrorPath task_id image_id env e).1 =
        [⟨image_id, task_id, none, none, 0, .error, some e⟩]) := by
  unfold ocrErrorPath
  cases hs : env.saveRes with
  | ok v => exact ⟨rfl, fun oid hoid => rfl⟩
  | error err =>
    refine ⟨rfl, fun oid hoid => ?_⟩
    cases hoid

/-- C4: every exception raised in the worker's processing steps is caught
at the top level: the task returns the error dict carrying the exception
message instead of propagating (ocr_task is a total function of its
oracles), and whenever the database write succeeds the attempt persists
exactly one OCRResult row with status error, the exception message,
confidence 0 and null value and raw text. -/
theorem ocr_task_catches_exceptions (task_id : String) (image_id : Nat)
    (env : OcrEnv) (e : String) (h : raisesDuring env e) :
    (ocr_task task_id image_id env).2 = .errorRes e ∧
    (∀ oid, env.saveRes = .ok oid →
      (ocr_task task_id image_id env).1 =
        [⟨image_id, task_id, none, none, 0, .error, some e⟩]) := by
  rcases h with h1 | ⟨h1, h2⟩ | ⟨h1, p, h2, h3, h4⟩
  · simp only [ocr_task, h1]
    exact ocrErrorPath_spec task_id image_id env e
  · simp only [ocr_task, h1, h2]
    exact ocrErrorPath_spec task_id image_id env e
  · simp [ocr_task, h1, h2, h3, h4]
    exact ocrErrorPath_spec task_id image_id env e

/-- Witness for C4 at a concrete input: an OCR engine failure is converted
into the error dict and one persisted error row. -/
theorem ocr_task_catches_exceptions_witness :
    (ocr_task "t1" 7 ⟨.ok (), .ok (some "up/img.jpg"), fun _ => true,
        .error "ocr boom", .ok 3⟩).2 = .errorRes "ocr boom" ∧
    (ocr_task "t1" 7 ⟨.ok (), .ok (some "up/img.jpg"), fun _ => true,
        .error "ocr boom", .ok 3⟩).1 =
      [⟨7, "t1", none, none, 0, .error, some "ocr boom"⟩] := by
  have h := ocr_task_catches_exceptions "t1" 7
    ⟨.ok (), .ok (some "up/img.jpg"), fun _ => true, .error "ocr boom", .ok 3⟩
    "ocr boom" (Or.inr (Or.inr ⟨rfl, "up/img.jpg", rfl, rfl, rfl⟩))
  exact ⟨h.1, h.2 3 rfl⟩

/-- C5 counterexample: with the database fully available (any save would
succeed), a job whose image id has no Image row makes the worker return
the error dict but persist no OCRResult row at all — it merely returns
without recording anything, contrary to the claim. -/
theorem ocr_task_missing_image_records_nothing :
    (ocr_task "t1" 5 ⟨.ok (), .ok none, fun _ => true, .ok ([], []), .ok 3⟩).1
        = [] ∧
    (ocr_task "t1" 5 ⟨.ok (), .ok none, fun _ => true, .ok ([], []), .ok 3⟩).2
        = .errorRes "Image with ID 5 not found" := by
  constructor <;> rfl

/-- C5 amended: when the worker finds no Image row, or finds the stored
file absent from disk, it immediately returns the corresponding error
dict ("Image with ID ... not found" / "Image file not found: ..."), but it
does not persist any OCRResult row on these two paths — no call to
db.save_ocr_result is made there. -/
theorem ocr_task_missing_image_or_file (task_id : String) (image_id : Nat)
    (env : OcrEnv) (hconn : env.connectRes = .ok ()) :
    (env.lookupRes = .ok none →
      ocr_task task_id image_id env =
        ([], .errorRes ("Image with ID " ++ toString image_id ++ " not found"))) ∧
    (∀ p, env.lookupRes = .ok (some p) → env.fileExists p = false →
      ocr_task task_id image_id env =
        ([], .errorRes ("Image file not found: " ++ p))) := by
  constructor
  · intro hl
    simp [ocr_task, hconn, hl]
  · intro p hl hf
    simp [ocr_task, hconn, hl, hf]

/-- Witness for the amended C5 at a concrete input. -/
theorem ocr_task_missing_image_or_file_witness :
    ocr_task "t2" 9 ⟨.ok (), .ok none, fun _ => true, .ok ([], []), .ok 1⟩ =
      ([], .errorRes "Image with ID 9 not found") :=
  (ocr_task_missing_image_or_file "t2" 9
    ⟨.ok (), .ok none, fun _ => true, .ok ([], []), .ok 1⟩ rfl).1 rfl

end Ecitko
